import Mathlib

/-!
Verification development for the `young_platform` exchange-API client
(`src/young_platform.py`).  The client is embedded shallowly: Python dicts
become insertion-ordered association lists, the HMAC-SHA512 hex-digest
primitive and the JSON parser of the HTTP response are external library
collaborators and are taken as function parameters, and exceptions become
`Except` errors.  The captured Unix timestamp `int(time.time())` is passed
explicitly as `ts`.
-/

namespace YoungPlatform

/-- Scalar JSON/Python values that flow through the client's request bodies.
`vfloat` carries the decimal text rendering of the float literal (for example
"1.5"): the client never computes with these values, it only stringifies them
(Python `str`) and re-serializes them (`json.dumps`), and both renderings of a
simple decimal float are that same text. -/
inductive PyVal where
  | vint (n : Int)
  | vstr (s : String)
  | vfloat (lit : String)
deriving DecidableEq

/-- Python `str()` of a scalar, as used by the serialization loop of
`_sign_request`: ints print bare, strings print without quotes, floats print
their decimal text. -/
def PyVal.pyStr : PyVal → String
  | .vint n => toString n
  | .vstr s => s
  | .vfloat lit => lit

/-- The `json.dumps` rendering of a scalar: strings are quoted, numbers bare.
(String escaping is not modelled; no body built by the client needs it.) -/
def PyVal.jsonStr : PyVal → String
  | .vint n => toString n
  | .vstr s => "\"" ++ s ++ "\""
  | .vfloat lit => lit

/-- A Python dict with string keys, modelled as an insertion-ordered
association list.  A value of this type that stands for an actual Python dict
has pairwise-distinct keys. -/
abbrev Dict := List (String × PyVal)

/-- The keys of a dict, in insertion order. -/
def dictKeys (d : Dict) : List String := d.map Prod.fst

/-- Lookup `l[k]` in an association list (Python dict indexing). -/
def assocLookup {β : Type} (k : String) : List (String × β) → Option β
  | [] => none
  | p :: rest => if p.1 = k then some p.2 else assocLookup k rest

/-- Python dict assignment `d[k] = v`: replace the value in place when the key
is already present (the keys of a dict are unique, so replacing the first
occurrence models this exactly), append at the end otherwise. -/
def assocSet {β : Type} (k : String) (v : β) : List (String × β) → List (String × β)
  | [] => [(k, v)]
  | p :: rest => if p.1 = k then (k, v) :: rest else p :: assocSet k v rest

/-- Python `d.update(e)`: assign every pair of `e` into `d`, left to right. -/
def dictUpdate (d e : Dict) : Dict := e.foldl (fun acc p => assocSet p.1 p.2 acc) d

/-- `json.dumps` of a dict with the library's default separators, preserving
insertion order exactly as Python does. -/
def jsonDumps (d : Dict) : String :=
  "\x7b" ++ String.intercalate ", " (d.map fun p => "\"" ++ p.1 ++ "\": " ++ p.2.jsonStr)
    ++ "\x7d"

/-- Python slice `s[:-1]`: the string without its final character. -/
def strDropLast (s : String) : String := ⟨s.data.dropLast⟩

/-- Lexicographic comparison of character lists by code point, written
structurally.  This is exactly Python's `<` on strings. -/
def charListLt : List Char → List Char → Bool
  | _, [] => false
  | [], _ :: _ => true
  | a :: as, b :: bs => if a < b then true else if b < a then false else charListLt as bs

/-- Python's `a < b` on the strings used as payload keys. -/
def keyLt (a b : String) : Bool := charListLt a.data b.data

/-- Insert one key/value pair into a list already sorted by key.  Python's
`sorted` compares the whole `(key, value)` tuples, but a dict's keys are
unique, so the key alone decides every comparison. -/
def insertByKey (p : String × PyVal) : List (String × PyVal) → List (String × PyVal)
  | [] => [p]
  | q :: rest => if keyLt p.1 q.1 then p :: q :: rest else q :: insertByKey p rest

/-- `sorted(d.items())`: the pairs of the dict in ascending key order. -/
def sortByKey : List (String × PyVal) → List (String × PyVal)
  | [] => []
  | p :: rest => insertByKey p (sortByKey rest)

/-- The serialization loop of `_sign_request`: iterate the payload in sorted
key order appending `key=str(value)&` each time, then drop the final `&`
(the Python slice `[:-1]`).  The intermediate dict comprehension in the source
rebuilds the sorted items as a dict and reads each value back by key; on a
payload with unique keys — and `signature_payload` is a Python dict, so its
keys are unique — that is the identity, and the loop reads the sorted pairs
directly. -/
def serializePayload (d : Dict) : String :=
  strDropLast ((sortByKey d).foldl (fun acc p => acc ++ p.1 ++ "=" ++ p.2.pyStr ++ "&") "")

/-- The signature payload built in `_sign_request`: the fixed pairs
`recvWindow = 10` and `timestamp = ts`, then `update`d with the parsed request
body when the prepared body is truthy.  A request built with `json=params` for
a dict `params` has the nonempty — hence truthy — prepared body
`json.dumps(params)`, from which `json.loads` recovers `params`; a request
built with `json=None` has no prepared body, so the fixed pairs stand alone. -/
def signaturePayload (ts : Int) (jsonBody : Option Dict) : Dict :=
  let base : Dict := [("recvWindow", .vint 10), ("timestamp", .vint ts)]
  match jsonBody with
  | none => base
  | some b => dictUpdate base b

/-- The API version fragment of the default base URL. -/
def VERSION : String := "v3/"

/-- The client configuration fixed at construction (`YPClient.__init__`). -/
structure Client where
  base_url : String := "https://api.youngplatform.com/api/" ++ VERSION
  api_key : Option String := none
  api_secret : Option String := none
  subaccount_name : Option String := none
deriving DecidableEq

/-- Python truthiness of an optional string (`if self._api_key:`): `None` and
the empty string are falsy, every other string is truthy. -/
def pyTruthy : Option String → Bool
  | none => false
  | some s => !(s == "")

/-- The exceptions the client can raise. -/
inductive PyError where
  | typeError (msg : String)
  | attributeError (msg : String)
  | httpError (status : Nat)
  | valueError
deriving DecidableEq

/-- The configuration/usage error raised by the `authentication_required`
gate. -/
def authError : PyError := .typeError "You must be authenticated to use this method"

/-- The error Python raises at `self._api_secret.encode()` in `_sign_request`
when no api_secret is configured: `None` has no `encode` attribute. -/
def encodeNoneError : PyError :=
  .attributeError "NoneType object has no attribute encode"

/-- An outbound `requests.Request`: `jsonBody` is the `json=` keyword argument
and `dataBody` the `data` attribute, which takes precedence over `jsonBody`
when the request is prepared for the wire. -/
structure Request where
  method : String
  url : String
  jsonBody : Option Dict := none
  dataBody : Option String := none
  headers : List (String × String) := []
deriving DecidableEq

/-- The body `request.prepare()` puts on the wire: the `data` attribute when
set, otherwise the JSON dump of the `json=` dict, otherwise nothing. -/
def Request.wireBody (r : Request) : Option String :=
  match r.dataBody with
  | some s => some s
  | none => r.jsonBody.map jsonDumps

/-- A request is signed when it carries the hmac header. -/
def Request.isSigned (r : Request) : Bool := (assocLookup "hmac" r.headers).isSome

/-- `_sign_request`, with the HMAC-SHA512 hex-digest primitive of the
`hmac`/`hashlib` library abstracted as `hmacSha512Hex secret message` and the
captured timestamp passed as `ts`.  When the api_secret is `None`, Python
raises an AttributeError at `self._api_secret.encode()` and no signature is
produced; otherwise the three headers are set (the apiKey header carries the
configured key, which is a string at the only call site) and the outgoing
body is replaced by the JSON dump of the signature payload. -/
def sign_request (hmacSha512Hex : String → String → String) (c : Client) (ts : Int)
    (request : Request) : Except PyError Request :=
  match c.api_secret with
  | none => .error encodeNoneError
  | some secret =>
    let payload := signaturePayload ts request.jsonBody
    let signature := hmacSha512Hex secret (serializePayload payload)
    .ok { request with
          headers := assocSet "hmac" signature
            (assocSet "apiKey" (c.api_key.getD "")
              (assocSet "content-Type" "application/json" request.headers)),
          dataBody := some (jsonDumps payload) }

/-- The `requests.Request` object built at the top of `_request`. -/
def mkRequest (c : Client) (method path : String) (jsonBody : Option Dict) : Request :=
  { method := method, url := c.base_url ++ path, jsonBody := jsonBody }

/-- `_request`: build the request from the base URL and the path, sign it when
an api_key is configured (Python truthiness), and hand the result to the HTTP
collaborator.  An `ok` value is the one request given to `session.send`; an
`error` value is an exception raised before any network call. -/
def request_dispatch (hmacSha512Hex : String → String → String) (c : Client) (ts : Int)
    (method path : String) (jsonBody : Option Dict) : Except PyError Request :=
  let request := mkRequest c method path jsonBody
  if pyTruthy c.api_key then sign_request hmacSha512Hex c ts request else .ok request

/-- `_get`: every call site in the source passes `params=None`, so the query
string is already embedded in `path` and the request has no body. -/
def http_get (hm : String → String → String) (c : Client) (ts : Int) (path : String) :
    Except PyError Request :=
  request_dispatch hm c ts "GET" path none

/-- `_post`: the params dict, when given, becomes the `json=` body. -/
def http_post (hm : String → String → String) (c : Client) (ts : Int) (path : String)
    (params : Option Dict) : Except PyError Request :=
  request_dispatch hm c ts "POST" path params

/-- `_delete`: as `_post` but with the DELETE verb. -/
def http_delete (hm : String → String → String) (c : Client) (ts : Int) (path : String)
    (params : Option Dict) : Except PyError Request :=
  request_dispatch hm c ts "DELETE" path params

/-- A transport response from the HTTP collaborator: status code and raw
body. -/
structure HttpResponse where
  status : Nat
  body : String
deriving DecidableEq

/-- `requests.Response.raise_for_status`: an HTTPError for the 4xx and 5xx
status ranges, nothing otherwise. -/
def raise_for_status (status : Nat) : Option PyError :=
  if 400 ≤ status ∧ status ≤ 599 then some (.httpError status) else none

/-- `_process_response`, with the JSON parser of the response body
(`response.json()`) abstracted as `jsonParse`: return the parsed data
regardless of status; on a parse failure raise the status error for 4xx/5xx,
otherwise re-raise the parse error (a `ValueError`). -/
def process_response {α : Type} (jsonParse : String → Option α) (response : HttpResponse) :
    Except PyError α :=
  match jsonParse response.body with
  | some data => .ok data
  | none =>
    match raise_for_status response.status with
    | some e => .error e
    | none => .error .valueError

/-- The transport half of `_request`: when dispatch produced a request, the
HTTP collaborator is invoked on it exactly once and the response normalized;
when dispatch raised, the collaborator is never invoked.  The second component
records the collaborator's invocations, as a mock HTTP client would. -/
def invoke {α : Type} (jsonParse : String → Option α) (send : Request → HttpResponse) :
    Except PyError Request → Except PyError α × List Request
  | .error e => (.error e, [])
  | .ok r => (process_response jsonParse (send r), [r])

/-- The hmac header of a dispatched request; `none` when dispatch raised. -/
def hmacOf : Except PyError Request → Option String
  | .ok r => assocLookup "hmac" r.headers
  | .error _ => none

/-- Whether the dispatched request is signed; `false` when dispatch raised. -/
def signedOf : Except PyError Request → Bool
  | .ok r => r.isSigned
  | .error _ => false

/-- The wire body of a dispatched request; `none` when dispatch raised. -/
def wireBodyOf : Except PyError Request → Option String
  | .ok r => r.wireBody
  | .error _ => none

/-- The `authentication_required` decorator: raise a TypeError when the
api_key is not configured (Python-falsy), otherwise run the wrapped method. -/
def authentication_required (c : Client) (fn : Unit → Except PyError Request) :
    Except PyError Request :=
  if pyTruthy c.api_key then fn () else .error authError

/-- `get_markets`. -/
def get_markets (hm : String → String → String) (c : Client) (ts : Int) :
    Except PyError Request :=
  http_get hm c ts "markets"

/-- `get_ticker`. -/
def get_ticker (hm : String → String → String) (c : Client) (ts : Int) (pair : String) :
    Except PyError Request :=
  http_get hm c ts ("ticker?pair=" ++ pair)

/-- `get_trades`. -/
def get_trades (hm : String → String → String) (c : Client) (ts : Int) (pair : String) :
    Except PyError Request :=
  http_get hm c ts ("trades?pair=" ++ pair)

/-- `get_orderbook`, with its default depth of 10 (an int, stringified into
the query). -/
def get_orderbook (hm : String → String → String) (c : Client) (ts : Int) (pair : String)
    (depth : Int := 10) : Except PyError Request :=
  http_get hm c ts ("orderbook?pair=" ++ pair ++ "&depth=" ++ toString depth)

/-- `get_wallet_balances` (authenticated). -/
def get_wallet_balances (hm : String → String → String) (c : Client) (ts : Int) :
    Except PyError Request :=
  authentication_required c fun _ => http_post hm c ts "balances" none

/-- `get_open_orders` (authenticated). -/
def get_open_orders (hm : String → String → String) (c : Client) (ts : Int) (pair : String) :
    Except PyError Request :=
  authentication_required c fun _ => http_post hm c ts ("openorders?pair=" ++ pair) none

/-- `place_market_order` (authenticated). -/
def place_market_order (hm : String → String → String) (c : Client) (ts : Int)
    (trade market side : String) (volume : PyVal) : Except PyError Request :=
  authentication_required c fun _ => http_post hm c ts "placeOrder"
    (some [("trade", .vstr trade), ("market", .vstr market), ("side", .vstr side),
           ("type", .vstr "MARKET"), ("volume", volume)])

/-- `place_limit_order` (authenticated). -/
def place_limit_order (hm : String → String → String) (c : Client) (ts : Int)
    (trade market side : String) (volume rate : PyVal) : Except PyError Request :=
  authentication_required c fun _ => http_post hm c ts "placeOrder"
    (some [("trade", .vstr trade), ("market", .vstr market), ("side", .vstr side),
           ("type", .vstr "LIMIT"), ("volume", volume), ("rate", rate)])

/-- `get_order_status` (authenticated): the order id is stringified into the
query. -/
def get_order_status (hm : String → String → String) (c : Client) (ts : Int)
    (existing_order_id : Int) : Except PyError Request :=
  authentication_required c fun _ =>
    http_post hm c ts ("orderbyid?orderId=" ++ toString existing_order_id) none

/-- `cancel_order` (authenticated). -/
def cancel_order (hm : String → String → String) (c : Client) (ts : Int)
    (side : String) (orderId : Int) : Except PyError Request :=
  authentication_required c fun _ =>
    http_post hm c ts "cancelOrder" (some [("side", .vstr side), ("orderId", .vint orderId)])

/-- Ampersand-joined concatenation with no trailing separator:
`[p1, p2, ..., pn]` becomes `p1&p2&...&pn`. -/
def joinAmp : List String → String
  | [] => ""
  | [x] => x
  | x :: y :: rest => x ++ "&" ++ joinAmp (y :: rest)

/-- The running serialization tail: each pair contributes `key=str(value)&`. -/
def trailParts : List (String × PyVal) → String
  | [] => ""
  | p :: rest => p.1 ++ "=" ++ p.2.pyStr ++ "&" ++ trailParts rest

/-- A client constructed with no credentials. -/
def noAuthClient : Client := {}

/-- A fully configured client. -/
def authClient : Client := { api_key := some "k", api_secret := some "s3cr3t" }

/-- A client with an api_key but no api_secret. -/
def keyNoSecretClient : Client := { api_key := some "k" }

/-- A client whose api_key is configured as the empty string — present in the
configuration, but Python-falsy — and whose api_secret is configured. -/
def emptyKeyClient : Client := { api_key := some "", api_secret := some "s3cr3t" }

/-- A concrete stand-in for the HMAC collaborator, used to instantiate
theorems at concrete inputs. -/
def hmacConcrete : String → String → String := fun secret msg => secret ++ ":" ++ msg

/-- A JSON parser collaborator that fails on every body. -/
def parseNone : String → Option Nat := fun _ => none

/-- A transport stub. -/
def sendStub : Request → HttpResponse := fun _ => { status := 200, body := "ok" }

/-! ## String facts -/

theorem strAppend_empty (s : String) : s ++ "" = s :=
  String.ext (by rw [String.data_append]; exact List.append_nil _)

theorem strEmpty_append (s : String) : "" ++ s = s :=
  String.ext (by rw [String.data_append]; rfl)

theorem strAppend_assoc (a b c : String) : a ++ b ++ c = a ++ (b ++ c) :=
  String.ext (by simp only [String.data_append]; exact List.append_assoc _ _ _)

theorem strDropLast_amp (s : String) : strDropLast (s ++ "&") = s := by
  apply String.ext
  show (s ++ "&").data.dropLast = s.data
  rw [String.data_append]
  exact List.dropLast_concat ..

/-! ## The key order used by the signer -/

theorem charListLt_lex : ∀ l m : List Char, charListLt l m = true ↔ List.Lex (· < ·) l m := by
  intro l
  induction l with
  | nil =>
    intro m
    cases m with
    | nil =>
      constructor
      · intro h; simp [charListLt] at h
      · intro h; exact absurd h (List.Lex.not_nil_right _ _)
    | cons b bs =>
      constructor
      · intro _; exact List.Lex.nil
      · intro _; rfl
  | cons a as ih =>
    intro m
    cases m with
    | nil =>
      constructor
      · intro h; simp [charListLt] at h
      · intro h; exact absurd h (List.Lex.not_nil_right _ _)
    | cons b bs =>
      by_cases h1 : a < b
      · simp only [charListLt, if_pos h1]
        constructor
        · intro _; exact List.Lex.rel h1
        · intro _; trivial
      · by_cases h2 : b < a
        · simp only [charListLt, if_neg h1, if_pos h2]
          constructor
          · intro h; cases h
          · intro h
            cases h with
            | rel h' => exact absurd h' h1
            | cons h' => exact absurd h2 (lt_irrefl a)
        · have hab : a = b := le_antisymm (not_lt.mp h2) (not_lt.mp h1)
          subst hab
          simp only [charListLt, if_neg h1, if_neg h2]
          exact (ih bs).trans List.Lex.cons_iff.symm

theorem keyLt_iff (a b : String) : keyLt a b = true ↔ a < b := by
  rw [keyLt, charListLt_lex a.data b.data]
  exact String.lt_iff_toList_lt.symm

theorem keyLt_false_iff (a b : String) : keyLt a b = false ↔ b ≤ a := by
  rw [← not_lt, ← keyLt_iff]
  cases keyLt a b <;> simp

/-! ## Sorting -/

theorem insertByKey_perm (p : String × PyVal) (l : List (String × PyVal)) :
    (insertByKey p l).Perm (p :: l) := by
  induction l with
  | nil => exact List.Perm.refl _
  | cons q rest ih =>
    by_cases h : keyLt p.1 q.1 = true
    · simp only [insertByKey, h, if_true]
      exact List.Perm.refl _
    · simp only [insertByKey, h, if_false]
      exact (ih.cons q).trans (List.Perm.swap p q rest)

theorem sortByKey_perm (l : List (String × PyVal)) : (sortByKey l).Perm l := by
  induction l with
  | nil => exact List.Perm.refl _
  | cons p rest ih =>
    exact (insertByKey_perm p (sortByKey rest)).trans (ih.cons p)

theorem insertByKey_pairwise (p : String × PyVal) {l : List (String × PyVal)}
    (h : l.Pairwise fun a b => a.1 ≤ b.1) :
    (insertByKey p l).Pairwise fun a b => a.1 ≤ b.1 := by
  induction l with
  | nil => simp [insertByKey]
  | cons q rest ih =>
    rw [List.pairwise_cons] at h
    obtain ⟨hq, hrest⟩ := h
    by_cases hk : keyLt p.1 q.1 = true
    · have hpq : p.1 < q.1 := (keyLt_iff _ _).mp hk
      simp only [insertByKey, hk, if_true]
      refine List.Pairwise.cons ?_ (List.Pairwise.cons hq hrest)
      intro x hx
      rcases List.mem_cons.mp hx with rfl | hx
      · exact le_of_lt hpq
      · exact le_trans (le_of_lt hpq) (hq x hx)
    · have hk' : keyLt p.1 q.1 = false := by
        cases hkk : keyLt p.1 q.1
        · rfl
        · exact absurd hkk hk
      have hqp : q.1 ≤ p.1 := (keyLt_false_iff _ _).mp hk'
      simp only [insertByKey, hk, if_false]
      refine List.Pairwise.cons ?_ (ih hrest)
      intro x hx
      have hx' : x ∈ p :: rest := (insertByKey_perm p rest).subset hx
      rcases List.mem_cons.mp hx' with rfl | hx'
      · exact hqp
      · exact hq x hx'

theorem sortByKey_pairwise (l : List (String × PyVal)) :
    (sortByKey l).Pairwise fun a b => a.1 ≤ b.1 := by
  induction l with
  | nil => simp [sortByKey]
  | cons p rest ih => exact insertByKey_pairwise p ih

theorem sortByKey_strict (l : List (String × PyVal)) (h : (dictKeys l).Nodup) :
    ((sortByKey l).map Prod.fst).Pairwise (· < ·) := by
  have hperm : ((sortByKey l).map Prod.fst).Perm (dictKeys l) :=
    (sortByKey_perm l).map Prod.fst
  have hnd : ((sortByKey l).map Prod.fst).Nodup := hperm.nodup_iff.mpr h
  have hle : ((sortByKey l).map Prod.fst).Pairwise (· ≤ ·) :=
    List.pairwise_map.mpr (sortByKey_pairwise l)
  have hne : ((sortByKey l).map Prod.fst).Pairwise (· ≠ ·) := hnd
  exact (hle.and hne).imp fun hx => lt_of_le_of_ne hx.1 hx.2

/-! ## Serialization -/

theorem foldl_serialize (l : List (String × PyVal)) (acc : String) :
    l.foldl (fun acc p => acc ++ p.1 ++ "=" ++ p.2.pyStr ++ "&") acc
      = acc ++ trailParts l := by
  induction l generalizing acc with
  | nil => rw [List.foldl_nil, trailParts, strAppend_empty]
  | cons p rest ih =>
    rw [List.foldl_cons, ih, trailParts]
    simp only [strAppend_assoc]

theorem trailParts_eq_joinAmp (l : List (String × PyVal)) (h : l ≠ []) :
    trailParts l = joinAmp (l.map fun p => p.1 ++ "=" ++ p.2.pyStr) ++ "&" := by
  induction l with
  | nil => exact absurd rfl h
  | cons p rest ih =>
    cases rest with
    | nil =>
      rw [trailParts, trailParts, strAppend_empty, List.map_cons, List.map_nil]
      simp only [joinAmp]
    | cons q rest' =>
      rw [trailParts, ih (by simp), List.map_cons]
      simp only [List.map_cons, joinAmp, strAppend_assoc]

theorem serializePayload_eq_joinAmp (d : Dict) :
    serializePayload d = joinAmp ((sortByKey d).map fun p => p.1 ++ "=" ++ p.2.pyStr) := by
  rw [serializePayload, foldl_serialize, strEmpty_append]
  cases hs : sortByKey d with
  | nil => rfl
  | cons p rest =>
    rw [trailParts_eq_joinAmp _ (by simp), strDropLast_amp]

/-! ## Dict update -/

theorem assocLookup_set_self {β : Type} (k : String) (v : β) (l : List (String × β)) :
    assocLookup k (assocSet k v l) = some v := by
  induction l with
  | nil => simp [assocSet, assocLookup]
  | cons p rest ih =>
    by_cases h : p.1 = k
    · simp [assocSet, assocLookup, h]
    · simp [assocSet, assocLookup, h, ih]

theorem assocLookup_set_ne {β : Type} {j k : String} (h : j ≠ k) (v : β)
    (l : List (String × β)) : assocLookup k (assocSet j v l) = assocLookup k l := by
  induction l with
  | nil => simp [assocSet, assocLookup, h]
  | cons p rest ih =>
    by_cases hp : p.1 = j
    · simp [assocSet, assocLookup, hp, h]
    · by_cases hk : p.1 = k
      · simp [assocSet, assocLookup, hp, hk, Ne.symm h]
      · simp [assocSet, assocLookup, hp, hk, ih]

theorem assocSet_of_not_mem {β : Type} {k : String} {l : List (String × β)}
    (h : k ∉ l.map Prod.fst) (v : β) : assocSet k v l = l ++ [(k, v)] := by
  induction l with
  | nil => rfl
  | cons p rest ih =>
    have hp : p.1 ≠ k := by
      intro he
      exact h (by simp [he])
    rw [assocSet]
    rw [if_neg hp, ih (fun hm => h (by simp [hm]))]
    rfl

theorem dictUpdate_cons (d : Dict) (p : String × PyVal) (e : Dict) :
    dictUpdate d (p :: e) = dictUpdate (assocSet p.1 p.2 d) e := rfl

theorem dictUpdate_lookup_of_not_mem {e : Dict} {k : String} (h : k ∉ dictKeys e)
    (d : Dict) : assocLookup k (dictUpdate d e) = assocLookup k d := by
  induction e generalizing d with
  | nil => rfl
  | cons p rest ih =>
    have hp : p.1 ≠ k := by
      intro he
      exact h (by simp [dictKeys, he])
    rw [dictUpdate_cons, ih (fun hm => h (by simp [dictKeys] at hm ⊢; exact Or.inr hm)),
      assocLookup_set_ne hp]

theorem dictUpdate_lookup_of_mem {e : Dict} {k : String} {v : PyVal}
    (hn : (dictKeys e).Nodup) (h : assocLookup k e = some v) (d : Dict) :
    assocLookup k (dictUpdate d e) = some v := by
  induction e generalizing d with
  | nil => simp [assocLookup] at h
  | cons p rest ih =>
    simp only [dictKeys, List.map_cons, List.nodup_cons] at hn
    by_cases hp : p.1 = k
    · rw [assocLookup, if_pos hp] at h
      rw [dictUpdate_cons, dictUpdate_lookup_of_not_mem (hp ▸ hn.1), hp]
      rw [assocLookup_set_self]
      exact h
    · rw [assocLookup, if_neg hp] at h
      rw [dictUpdate_cons]
      exact ih hn.2 h _

theorem dictUpdate_eq_append {e : Dict} (hn : (dictKeys e).Nodup) :
    ∀ d : Dict, (∀ k ∈ dictKeys e, k ∉ dictKeys d) → dictUpdate d e = d ++ e := by
  induction e with
  | nil => intro d _; simp [dictUpdate]
  | cons p rest ih =>
    intro d hdisj
    simp only [dictKeys, List.map_cons, List.nodup_cons] at hn
    have hset : assocSet p.1 p.2 d = d ++ [p] := by
      rw [assocSet_of_not_mem (hdisj p.1 (by simp [dictKeys]))]
    rw [dictUpdate_cons, hset, ih hn.2]
    · simp
    · intro k hk
      have hk2 : k ∈ dictKeys (p :: rest) := by
        rw [dictKeys, List.map_cons]
        exact List.mem_cons_of_mem _ hk
      have hkd : k ∉ dictKeys d := hdisj k hk2
      have hkp : k ≠ p.1 := by
        intro he
        exact hn.1 (he ▸ hk)
      intro hmem
      rw [dictKeys, List.map_append, List.mem_append] at hmem
      rcases hmem with hd | hp1
      · exact hkd hd
      · simp at hp1
        exact hkp hp1

/-! ## Auxiliary facts about the dispatcher -/

theorem sign_request_url (hm : String → String → String) (c : Client) (ts : Int)
    (q r : Request) (h : sign_request hm c ts q = .ok r) : r.url = q.url := by
  cases hs : c.api_secret with
  | none => simp [sign_request, hs] at h
  | some s =>
    simp only [sign_request, hs, Except.ok.injEq] at h
    rw [← h]

/-! ## The claims -/

/-- C1: every authenticated public method (get_wallet_balances,
get_open_orders, place_market_order, place_limit_order, get_order_status,
cancel_order), called on a client whose API key is not configured, raises the
configuration/usage TypeError immediately, and the HTTP collaborator is never
invoked: its recorded invocation list is empty. -/
theorem claim_C1_auth_gate (α : Type) (jsonParse : String → Option α)
    (send : Request → HttpResponse) (hm : String → String → String) (c : Client) (ts : Int)
    (pair trade market side : String) (volume rate : PyVal) (oid : Int)
    (cside : String) (coid : Int) (h : pyTruthy c.api_key = false) :
    invoke jsonParse send (get_wallet_balances hm c ts) = (.error authError, []) ∧
    invoke jsonParse send (get_open_orders hm c ts pair) = (.error authError, []) ∧
    invoke jsonParse send (place_market_order hm c ts trade market side volume)
      = (.error authError, []) ∧
    invoke jsonParse send (place_limit_order hm c ts trade market side volume rate)
      = (.error authError, []) ∧
    invoke jsonParse send (get_order_status hm c ts oid) = (.error authError, []) ∧
    invoke jsonParse send (cancel_order hm c ts cside coid) = (.error authError, []) := by
  refine ⟨?_, ?_, ?_, ?_, ?_, ?_⟩ <;>
    simp [get_wallet_balances, get_open_orders, place_market_order, place_limit_order,
      get_order_status, cancel_order, authentication_required, h, invoke]

/-- C1 witness: the gate theorem instantiated at a concrete client built
without an API key and concrete arguments. -/
theorem claim_C1_witness :
    invoke parseNone sendStub (get_wallet_balances hmacConcrete noAuthClient 0)
      = (.error authError, []) ∧
    invoke parseNone sendStub (get_open_orders hmacConcrete noAuthClient 0 "BTC-EUR")
      = (.error authError, []) ∧
    invoke parseNone sendStub
        (place_market_order hmacConcrete noAuthClient 0 "BTC" "EUR" "BUY" (.vfloat "1.5"))
      = (.error authError, []) ∧
    invoke parseNone sendStub
        (place_limit_order hmacConcrete noAuthClient 0 "BTC" "EUR" "BUY" (.vfloat "1.5")
          (.vint 20000))
      = (.error authError, []) ∧
    invoke parseNone sendStub (get_order_status hmacConcrete noAuthClient 0 7)
      = (.error authError, []) ∧
    invoke parseNone sendStub (cancel_order hmacConcrete noAuthClient 0 "BUY" 7)
      = (.error authError, []) :=
  claim_C1_auth_gate Nat parseNone sendStub hmacConcrete noAuthClient 0 "BTC-EUR" "BTC" "EUR"
    "BUY" (.vfloat "1.5") (.vint 20000) 7 "BUY" 7 rfl

/-- C2 counterexample: on a client whose API key and API secret are both
present in the configuration — the key being the empty string, which is
Python-falsy — get_markets dispatches a request that is not signed, so
signing does not occur although both credentials are present, refuting the
claimed equivalence as stated. -/
theorem claim_C2_counterexample :
    emptyKeyClient.api_key.isSome = true ∧ emptyKeyClient.api_secret.isSome = true ∧
    get_markets hmacConcrete emptyKeyClient 0
      = .ok (mkRequest emptyKeyClient "GET" "markets" none) ∧
    (mkRequest emptyKeyClient "GET" "markets" none).isSigned = false :=
  ⟨rfl, rfl, rfl, rfl⟩

/-- C2 (amended): a dispatched request is signed exactly when the API key is
configured as a Python-truthy string and the API secret is not None; when the
key is truthy but the secret is None, dispatch raises the AttributeError from
None.encode() before any network call, so no request is ever signed while the
secret is absent. -/
theorem claim_C2_signing_condition (hm : String → String → String) (c : Client) (ts : Int)
    (method path : String) (body : Option Dict) :
    signedOf (request_dispatch hm c ts method path body)
      = (pyTruthy c.api_key && c.api_secret.isSome) ∧
    (pyTruthy c.api_key = true → c.api_secret = none →
      request_dispatch hm c ts method path body = .error encodeNoneError) := by
  constructor
  · cases hk : pyTruthy c.api_key with
    | false =>
      simp [request_dispatch, hk, signedOf, Request.isSigned, mkRequest, assocLookup]
    | true =>
      cases hs : c.api_secret with
      | none => simp [request_dispatch, hk, hs, sign_request, signedOf]
      | some s =>
        simp [request_dispatch, hk, hs, sign_request, signedOf, Request.isSigned,
          assocLookup_set_self]
  · intro hk hs
    simp [request_dispatch, hk, hs, sign_request]

/-- C2 witness: at a client with a truthy key and no secret, the amended
theorem instantiates: dispatch reports unsigned and raises the
AttributeError before any network call. -/
theorem claim_C2_witness :
    signedOf (request_dispatch hmacConcrete keyNoSecretClient 0 "POST" "balances" none)
      = (pyTruthy keyNoSecretClient.api_key && keyNoSecretClient.api_secret.isSome) ∧
    request_dispatch hmacConcrete keyNoSecretClient 0 "POST" "balances" none
      = .error encodeNoneError := by
  obtain ⟨h1, h2⟩ :=
    claim_C2_signing_condition hmacConcrete keyNoSecretClient 0 "POST" "balances" none
  exact ⟨h1, h2 rfl rfl⟩

/-- C3: for a body whose keys are unique and disjoint from recvWindow and
timestamp, the signature payload is the two fixed pairs followed by the body,
and the serialized signature string is the ampersand-join — no trailing
separator — of the key=str(value) parts of exactly the payload's items,
listed in strictly ascending lexicographic key order. -/
theorem claim_C3_sorted_serialization (b : Dict) (ts : Int)
    (hnd : (dictKeys b).Nodup)
    (h1 : "recvWindow" ∉ dictKeys b) (h2 : "timestamp" ∉ dictKeys b) :
    signaturePayload ts (some b)
        = [("recvWindow", PyVal.vint 10), ("timestamp", PyVal.vint ts)] ++ b ∧
    serializePayload (signaturePayload ts (some b))
        = joinAmp ((sortByKey (signaturePayload ts (some b))).map
            fun p => p.1 ++ "=" ++ p.2.pyStr) ∧
    (sortByKey (signaturePayload ts (some b))).Perm (signaturePayload ts (some b)) ∧
    ((sortByKey (signaturePayload ts (some b))).map Prod.fst).Pairwise (· < ·) := by
  have hpay : signaturePayload ts (some b)
      = [("recvWindow", PyVal.vint 10), ("timestamp", PyVal.vint ts)] ++ b := by
    rw [signaturePayload]
    apply dictUpdate_eq_append hnd
    intro k hk hmem
    simp [dictKeys] at hmem
    rcases hmem with rfl | rfl
    · exact h1 hk
    · exact h2 hk
  have hkeys : dictKeys ([("recvWindow", PyVal.vint 10), ("timestamp", PyVal.vint ts)] ++ b)
      = "recvWindow" :: "timestamp" :: dictKeys b := by
    simp [dictKeys]
  refine ⟨hpay, serializePayload_eq_joinAmp _, sortByKey_perm _, ?_⟩
  apply sortByKey_strict
  rw [hpay, hkeys]
  refine List.nodup_cons.mpr ⟨?_, List.nodup_cons.mpr ⟨h2, hnd⟩⟩
  intro hmem
  rcases List.mem_cons.mp hmem with he | hm
  · exact absurd he (by decide)
  · exact h1 hm

/-- C3 witness: the serialization theorem instantiated at the one-key body
volume=1.5 and timestamp 7. -/
theorem claim_C3_witness :
    signaturePayload 7 (some [("volume", PyVal.vfloat "1.5")])
        = [("recvWindow", PyVal.vint 10), ("timestamp", PyVal.vint 7)]
            ++ [("volume", PyVal.vfloat "1.5")] ∧
    serializePayload (signaturePayload 7 (some [("volume", PyVal.vfloat "1.5")]))
        = joinAmp ((sortByKey (signaturePayload 7 (some [("volume", PyVal.vfloat "1.5")]))).map
            fun p => p.1 ++ "=" ++ p.2.pyStr) ∧
    (sortByKey (signaturePayload 7 (some [("volume", PyVal.vfloat "1.5")]))).Perm
        (signaturePayload 7 (some [("volume", PyVal.vfloat "1.5")])) ∧
    ((sortByKey (signaturePayload 7 (some [("volume", PyVal.vfloat "1.5")]))).map
        Prod.fst).Pairwise (· < ·) :=
  claim_C3_sorted_serialization [("volume", PyVal.vfloat "1.5")] 7 (by decide) (by decide)
    (by decide)

/-- C4: when the body itself defines recvWindow or timestamp at key k with
value v, the merge that builds the signature payload overwrites the fixed
value: the payload — which is what gets serialized for signing and dumped as
the wire body — maps k to the body's v. -/
theorem claim_C4_body_overwrites (b : Dict) (ts : Int) (k : String) (v : PyVal)
    (hnd : (dictKeys b).Nodup)
    (_hk : k = "recvWindow" ∨ k = "timestamp")
    (hv : assocLookup k b = some v) :
    assocLookup k (signaturePayload ts (some b)) = some v := by
  rw [signaturePayload]
  exact dictUpdate_lookup_of_mem hnd hv _

/-- C4 witness: a body defining timestamp=999 signed at captured time 5 has
payload timestamp 999, not 5. -/
theorem claim_C4_witness :
    assocLookup "timestamp" (signaturePayload 5 (some [("timestamp", PyVal.vint 999)]))
      = some (PyVal.vint 999) :=
  claim_C4_body_overwrites [("timestamp", PyVal.vint 999)] 5 "timestamp" (PyVal.vint 999)
    (by decide) (Or.inr rfl) (by decide)

/-- C5: the response normalizer returns the parsed JSON whenever the body
parses, regardless of HTTP status; when the body does not parse it raises the
HTTP status error if the status is in the 4xx/5xx failure range, and
otherwise re-raises the parse error. -/
theorem claim_C5_response_normalization (α : Type) (jsonParse : String → Option α)
    (response : HttpResponse) :
    (∀ data, jsonParse response.body = some data →
        process_response jsonParse response = .ok data) ∧
    (jsonParse response.body = none → 400 ≤ response.status → response.status ≤ 599 →
        process_response jsonParse response = .error (.httpError response.status)) ∧
    (jsonParse response.body = none → ¬(400 ≤ response.status ∧ response.status ≤ 599) →
        process_response jsonParse response = .error .valueError) := by
  refine ⟨?_, ?_, ?_⟩
  · intro data h
    simp [process_response, h]
  · intro h h4 h5
    simp [process_response, h, raise_for_status, h4, h5]
  · intro h hns
    simp [process_response, h, raise_for_status, hns]

/-- C5 witness: a failing parse with status 400 raises the status error. -/
theorem claim_C5_witness :
    process_response parseNone { status := 400, body := "oops" }
      = .error (.httpError 400) :=
  (claim_C5_response_normalization Nat parseNone { status := 400, body := "oops" }).2.1
    rfl (by decide) (by decide)

/-- C6: after signing, the outgoing wire body is exactly the JSON-serialized
signature payload (the fixed keys merged with the original body fields), not
the caller-supplied body; and when the request carries no body, the payload
signed and sent is exactly recvWindow=10 with timestamp=ts. -/
theorem claim_C6_wire_body (hm : String → String → String) (c : Client) (ts : Int)
    (r : Request) (secret : String) (hs : c.api_secret = some secret) :
    wireBodyOf (sign_request hm c ts r)
        = some (jsonDumps (signaturePayload ts r.jsonBody)) ∧
    signaturePayload ts none
        = [("recvWindow", PyVal.vint 10), ("timestamp", PyVal.vint ts)] := by
  constructor
  · simp [sign_request, hs, wireBodyOf, Request.wireBody]
  · rfl

/-- C6 witness: the wire-body theorem at a concrete signed POST. -/
theorem claim_C6_witness :
    wireBodyOf (sign_request hmacConcrete authClient 7
        (mkRequest authClient "POST" "placeOrder" (some [("side", PyVal.vstr "BUY")])))
      = some (jsonDumps (signaturePayload 7 (some [("side", PyVal.vstr "BUY")]))) ∧
    signaturePayload 7 none
      = [("recvWindow", PyVal.vint 10), ("timestamp", PyVal.vint 7)] :=
  claim_C6_wire_body hmacConcrete authClient 7
    (mkRequest authClient "POST" "placeOrder" (some [("side", PyVal.vstr "BUY")]))
    "s3cr3t" rfl

/-- C7: the signer's digest is the HMAC-SHA512 hex digest of the secret and
the serialized payload, which depends only on the body and the timestamp:
signing is deterministic, and two runs with the same secret, body and
timestamp produce the same digest.  (The HMAC-SHA512 primitive itself is the
hmac/hashlib library collaborator, abstracted as the function hm.) -/
theorem claim_C7_deterministic_signature (hm : String → String → String) (c : Client)
    (ts : Int) (r : Request) (secret : String) (hs : c.api_secret = some secret) :
    hmacOf (sign_request hm c ts r)
        = some (hm secret (serializePayload (signaturePayload ts r.jsonBody))) ∧
    (∀ r2 : Request, r2.jsonBody = r.jsonBody →
        hmacOf (sign_request hm c ts r2) = hmacOf (sign_request hm c ts r)) := by
  have key : ∀ q : Request, hmacOf (sign_request hm c ts q)
      = some (hm secret (serializePayload (signaturePayload ts q.jsonBody))) := by
    intro q
    simp [sign_request, hs, hmacOf, assocLookup_set_self]
  refine ⟨key r, fun r2 h => ?_⟩
  rw [key r2, key r, h]

/-- C7 witness: the digest of a concrete bodyless signed request. -/
theorem claim_C7_witness :
    hmacOf (sign_request hmacConcrete authClient 7
        (mkRequest authClient "POST" "balances" none))
      = some (hmacConcrete "s3cr3t" (serializePayload (signaturePayload 7 none))) :=
  (claim_C7_deterministic_signature hmacConcrete authClient 7
    (mkRequest authClient "POST" "balances" none) "s3cr3t" rfl).1

/-- C8: the digest depends only on the secret, the JSON body and the
timestamp, never on the request path or its embedded query parameters:
signing two requests with equal bodies yields equal hmac headers whatever
their URLs and methods, and in particular get_order_status produces the same
digest for any two order ids. -/
theorem claim_C8_path_independence (hm : String → String → String) (c : Client) (ts : Int)
    (r1 r2 : Request) (hbody : r1.jsonBody = r2.jsonBody) :
    hmacOf (sign_request hm c ts r1) = hmacOf (sign_request hm c ts r2) ∧
    (∀ id1 id2 : Int, hmacOf (get_order_status hm c ts id1)
        = hmacOf (get_order_status hm c ts id2)) := by
  have hgen : ∀ q1 q2 : Request, q1.jsonBody = q2.jsonBody →
      hmacOf (sign_request hm c ts q1) = hmacOf (sign_request hm c ts q2) := by
    intro q1 q2 hq
    cases hs : c.api_secret with
    | none => simp [sign_request, hs, hmacOf]
    | some s => simp [sign_request, hs, hmacOf, assocLookup_set_self, hq]
  refine ⟨hgen r1 r2 hbody, fun id1 id2 => ?_⟩
  cases hk : pyTruthy c.api_key with
  | false => simp [get_order_status, authentication_required, hk, hmacOf]
  | true =>
    simp only [get_order_status, authentication_required, hk, if_true, http_post,
      request_dispatch]
    exact hgen _ _ rfl

/-- C8 witness: get_order_status digests agree across order ids 3 and 99. -/
theorem claim_C8_witness :
    hmacOf (get_order_status hmacConcrete authClient 0 3)
      = hmacOf (get_order_status hmacConcrete authClient 0 99) :=
  (claim_C8_path_independence hmacConcrete authClient 0
    (mkRequest authClient "POST" "orderbyid?orderId=3" none)
    (mkRequest authClient "POST" "orderbyid?orderId=99" none) rfl).2 3 99

/-- C9: get_orderbook with pair BTC-EUR and the default depth dispatches a
request whose URL is the configured base URL with the path
orderbook?pair=BTC-EUR&depth=10 appended. -/
theorem claim_C9_orderbook_path (hm : String → String → String) (c : Client) (ts : Int)
    (r : Request) (h : get_orderbook hm c ts "BTC-EUR" = .ok r) :
    r.url = c.base_url ++ "orderbook?pair=BTC-EUR&depth=10" := by
  have hpath : ("orderbook?pair=" ++ "BTC-EUR" ++ "&depth=" ++ toString (10 : Int))
      = "orderbook?pair=BTC-EUR&depth=10" := by decide
  simp only [get_orderbook, http_get, request_dispatch] at h
  by_cases hk : pyTruthy c.api_key = true
  · rw [if_pos hk] at h
    rw [sign_request_url _ _ _ _ _ h]
    show c.base_url ++ ("orderbook?pair=" ++ "BTC-EUR" ++ "&depth=" ++ toString (10 : Int))
      = c.base_url ++ "orderbook?pair=BTC-EUR&depth=10"
    rw [hpath]
  · rw [if_neg hk] at h
    have hr := Except.ok.inj h
    rw [← hr]
    show c.base_url ++ ("orderbook?pair=" ++ "BTC-EUR" ++ "&depth=" ++ toString (10 : Int))
      = c.base_url ++ "orderbook?pair=BTC-EUR&depth=10"
    rw [hpath]

/-- C9 witness: at an unauthenticated client, the dispatched orderbook
request carries the stated URL. -/
theorem claim_C9_witness :
    (mkRequest noAuthClient "GET"
        ("orderbook?pair=" ++ "BTC-EUR" ++ "&depth=" ++ toString (10 : Int)) none).url
      = noAuthClient.base_url ++ "orderbook?pair=BTC-EUR&depth=10" :=
  claim_C9_orderbook_path hmacConcrete noAuthClient 0 _ rfl

/-- C10: place_limit_order with BTC, EUR, BUY, 1.5 and 20000 on an
authenticated client builds, prior to the signing overlay, exactly the body
mapping trade=BTC, market=EUR, side=BUY, type=LIMIT, volume=1.5, rate=20000,
dispatched as a POST to path placeOrder. -/
theorem claim_C10_limit_order (hm : String → String → String) (c : Client) (ts : Int)
    (h : pyTruthy c.api_key = true) :
    place_limit_order hm c ts "BTC" "EUR" "BUY" (PyVal.vfloat "1.5") (PyVal.vint 20000)
      = sign_request hm c ts (mkRequest c "POST" "placeOrder"
          (some [("trade", PyVal.vstr "BTC"), ("market", PyVal.vstr "EUR"),
                 ("side", PyVal.vstr "BUY"), ("type", PyVal.vstr "LIMIT"),
                 ("volume", PyVal.vfloat "1.5"), ("rate", PyVal.vint 20000)])) := by
  simp [place_limit_order, authentication_required, http_post, request_dispatch, h]

/-- C10 witness: the limit-order theorem at a concrete authenticated
client. -/
theorem claim_C10_witness :
    place_limit_order hmacConcrete authClient 0 "BTC" "EUR" "BUY" (PyVal.vfloat "1.5")
        (PyVal.vint 20000)
      = sign_request hmacConcrete authClient 0 (mkRequest authClient "POST" "placeOrder"
          (some [("trade", PyVal.vstr "BTC"), ("market", PyVal.vstr "EUR"),
                 ("side", PyVal.vstr "BUY"), ("type", PyVal.vstr "LIMIT"),
                 ("volume", PyVal.vfloat "1.5"), ("rate", PyVal.vint 20000)])) :=
  claim_C10_limit_order hmacConcrete authClient 0 rfl

end YoungPlatform
